import Mathlib

/-!
Verification of the ChangiChat crawl-and-index pipeline.

The development shallowly embeds the pure logic of `webscrape.py` and
`ingest.py`: the URL classifier `should_skip_url`, the content extractor
`extract_text`, the frontier crawl loop of `scrape_site` (as a step
relation over an abstract web environment), and the record loader
`load_jsonl` together with the effect trace of the ingest entry point.
External libraries (urllib, BeautifulSoup, the file system) appear only
at their boundaries: a URL is modelled by its parsed components, a parsed
page by the list of title/heading/paragraph elements BeautifulSoup would
report, and the HTTP layer by a function from URL to response.
-/

/-- Result of urlparse applied to a URL: the components `should_skip_url`
and `is_internal_link` read (the unused params component is omitted). -/
structure ParsedUrl where
  scheme : String
  netloc : String
  path : String
  query : String
  fragment : String
deriving DecidableEq

/-- SKIP_EXTENSIONS from webscrape.py (a Python set, modelled as a list;
only membership is ever used). -/
def SKIP_EXTENSIONS : List String :=
  [".pdf", ".jpg", ".jpeg", ".png", ".gif", ".svg", ".css", ".js",
   ".xml", ".zip", ".doc", ".docx", ".xls", ".xlsx", ".ppt", ".pptx"]

/-- MAX_PAGES_PER_DOMAIN from webscrape.py. -/
def MAX_PAGES_PER_DOMAIN : Nat := 100

/-- MAX_TOTAL_PAGES from webscrape.py. -/
def MAX_TOTAL_PAGES : Nat := 200

/-- skip_params from should_skip_url in webscrape.py. -/
def skip_params : List String :=
  ["page", "p", "id", "ref", "utm_", "fbclid", "gclid"]

/-- Python str.strip with no argument: remove whitespace from both ends
(the Lean String.trim is implemented by well-founded recursion on byte
positions and does not reduce in the kernel, so the model recurses over
the character list instead). -/
def pyStrip (s : String) : String :=
  String.mk (((s.toList.dropWhile Char.isWhitespace).reverse.dropWhile
    Char.isWhitespace).reverse)

/-- Python str.lower, characterwise. -/
def pyLower (s : String) : String :=
  String.mk (s.toList.map Char.toLower)

/-- Python str.endswith. -/
def pyEndsWith (s suffix : String) : Bool :=
  suffix.toList.isSuffixOf s.toList

/-- Split a character list at every occurrence of sep; consecutive
separators yield empty groups, like Python str.split with an argument. -/
def splitOnChar (sep : Char) : List Char → List (List Char)
  | [] => [[]]
  | c :: rest =>
    let r := splitOnChar sep rest
    if c = sep then [] :: r
    else
      match r with
      | [] => [[c]]
      | g :: gs => (c :: g) :: gs

/-- Python s.split(sep) for a one-character separator. -/
def pySplit (s : String) (sep : Char) : List String :=
  (splitOnChar sep s.toList).map String.mk

/-- Python sep.join(texts). -/
def joinWith (sep : String) : List String → String
  | [] => ""
  | [t] => t
  | t :: rest => t ++ sep ++ joinWith sep rest

/-- Substring test on character lists, modelling the Python `in` operator
on strings: `hasSubstr hay needle` is true iff needle occurs contiguously
somewhere in hay (the empty needle always occurs). -/
def hasSubstr (hay needle : List Char) : Bool :=
  needle.isPrefixOf hay ||
    match hay with
    | [] => false
    | _ :: t => hasSubstr t needle

/-- Python `needle in hay` for strings. -/
def strContains (hay needle : String) : Bool :=
  hasSubstr hay.toList needle.toList

/-- is_internal_link from webscrape.py, on the netloc components urlparse
would produce: an empty netloc (relative URL) is internal, otherwise the
netloc must equal the base netloc. -/
def is_internal_link (linkNetloc baseNetloc : String) : Bool :=
  linkNetloc == "" || linkNetloc == baseNetloc

/-- Non-empty path segments of a URL, modelling
`[seg for seg in parsed.path.split('/') if seg]`. -/
def path_segments (u : ParsedUrl) : List String :=
  (pySplit u.path '/').filter fun seg => seg != ""

/-- Extension check of should_skip_url: the lowercased path ends with some
denylisted extension. -/
def ext_check (u : ParsedUrl) : Bool :=
  SKIP_EXTENSIONS.any fun ext => pyEndsWith (pyLower u.path) ext

/-- Query check of should_skip_url: the query is non-empty and some
denylisted token occurs as a substring of the lowercased raw query. -/
def query_check (u : ParsedUrl) : Bool :=
  u.query != "" && skip_params.any fun param => strContains (pyLower u.query) param

/-- Depth check of should_skip_url: more than 4 non-empty path segments. -/
def depth_check (u : ParsedUrl) : Bool :=
  decide (4 < (path_segments u).length)

/-- Fragment check of should_skip_url: the URL carries a fragment. -/
def fragment_check (u : ParsedUrl) : Bool :=
  u.fragment != ""

/-- should_skip_url from webscrape.py, mirroring its early-return chain:
extension denylist on the lowercased path, then dynamic-parameter
substring test on the query, then path depth, then fragment. -/
def should_skip_url (u : ParsedUrl) : Bool :=
  if SKIP_EXTENSIONS.any fun ext => pyEndsWith (pyLower u.path) ext then
    true
  else if u.query != "" && skip_params.any fun param => strContains (pyLower u.query) param then
    true
  else if 4 < (path_segments u).length then
    true
  else if u.fragment != "" then
    true
  else
    false

/-- Tags whose text extract_text collects. -/
inductive Tag where
  | h1
  | h2
  | h3
  | p
deriving DecidableEq

/-- One element of the parsed page: its tag and the raw text BeautifulSoup
would return for it (trimmed by get_text with strip=True, modelled by
pyStrip). -/
structure Element where
  tag : Tag
  text : String
deriving DecidableEq

/-- Parsed markup as extract_text consumes it: the raw text of the title
element when `soup.title` is truthy (none when the document has no title
element or the title element has no contents), and the h1/h2/h3/p elements
in document order. -/
structure Soup where
  title : Option String
  body : List Element
deriving DecidableEq

/-- extract_text from webscrape.py: the trimmed title text when a title is
present (appended unconditionally, even when trimming leaves it empty),
then for each tag in [h1, h2, h3, p] in turn the trimmed text of every
element with that tag in document order, keeping only non-empty texts; the
collected lines are joined with a newline. -/
def extract_text (soup : Soup) : String :=
  let texts :=
    (match soup.title with
     | some t => [pyStrip t]
     | none => []) ++
    ([Tag.h1, Tag.h2, Tag.h3, Tag.p].flatMap fun tg =>
      (soup.body.filter fun el => el.tag == tg).filterMap fun el =>
        let txt := pyStrip el.text
        if txt ≠ "" then some txt else none)
  joinWith "\n" texts

/-- Written from the claim text, for comparison with extract_text: the
title (only when its trimmed text is non-empty) followed by the trimmed
text of every heading and paragraph element in document order, each on its
own line, with only non-empty trimmed text included. -/
def extract_text_claimed (soup : Soup) : String :=
  let titleTexts :=
    match soup.title with
    | some t => if pyStrip t ≠ "" then [pyStrip t] else []
    | none => []
  let bodyTexts := soup.body.filterMap fun el =>
    if pyStrip el.text ≠ "" then some (pyStrip el.text) else none
  joinWith "\n" (titleTexts ++ bodyTexts)

/-- Trimmed non-empty texts of the elements carrying one tag, in document
order (written from the amended claim). -/
def tag_texts (soup : Soup) (tg : Tag) : List String :=
  ((soup.body.filter fun el => el.tag == tg).map fun el => pyStrip el.text).filter
    fun t => decide (t ≠ "")

/-- Written from the amended claim: the trimmed title text whenever a title
is present (even when empty), then the non-empty trimmed texts of all h1
elements, then of all h2, then all h3, then all paragraphs, each group in
document order, joined with newlines. -/
def extract_text_grouped (soup : Soup) : String :=
  joinWith "\n"
    ((match soup.title with
      | some t => [pyStrip t]
      | none => []) ++
     tag_texts soup Tag.h1 ++ tag_texts soup Tag.h2 ++
     tag_texts soup Tag.h3 ++ tag_texts soup Tag.p)

/-- One scraped page as written to the record store: one JSON object with
keys url and text. -/
structure PageRecord where
  url : String
  text : String
deriving DecidableEq

/-- Outcome of fetching and parsing one URL, abstracting requests.get and
the BeautifulSoup parser chain of scrape_site: fetchFail covers network
errors, timeouts and non-2xx statuses (raise_for_status); parseFail the
case where html.parser, lxml and html5lib all fail; ok carries the parsed
page and the set of links get_links reports for it (already filtered by
is_internal_link and should_skip_url, in some iteration order). -/
inductive PageResponse where
  | fetchFail
  | parseFail
  | ok (soup : Soup) (links : List String)

/-- Mutable state of one scrape_site run, with an added ghost counter
attempts that counts calls of requests.get (fetch attempts). The visited
and frontier Python sets are modelled as duplicate-free lists. -/
structure CrawlState where
  visited : List String
  frontier : List String
  records : List PageRecord
  pages : Nat
  total : Nat
  attempts : Nat
deriving DecidableEq

/-- State at the top of scrape_site: empty visited set, the base URL as
the sole frontier entry, no records, zero pages for this origin, and the
running cross-origin total passed in by main. -/
def initState (base : String) (t0 : Nat) : CrawlState :=
  { visited := [], frontier := [base], records := [], pages := 0,
    total := t0, attempts := 0 }

/-- Link-enqueue loop at the bottom of the scrape_site loop body: walk the
discovered links, adding each one that is in neither the visited set nor
the frontier, stopping the additions once 10 links have been added for
this page. -/
def addLinks (visited : List String) (frontier : List String) :
    List String → Nat → List String
  | [], _ => frontier
  | l :: rest, added =>
    if l ∉ visited ∧ l ∉ frontier ∧ added < 10 then
      addLinks visited (frontier ++ [l]) rest (added + 1)
    else
      addLinks visited frontier rest added

/-- Body of the scrape_site while loop after the pop of url, acting on the
state with url already removed from the frontier: the stale-entry guard
(continue when url is already visited), the redundant total-limit check
(break), then the fetch; on fetch or parse failure the URL is only marked
visited, otherwise the text is extracted, a record is emitted when the
text is non-empty and its stripped length exceeds 50 (incrementing both
counters), the URL is marked visited, and up to 10 new links join the
frontier. -/
def processUrl (web : String → PageResponse) (url : String)
    (s : CrawlState) : CrawlState :=
  if url ∈ s.visited then s
  else if MAX_TOTAL_PAGES ≤ s.total then s
  else
    match web url with
    | PageResponse.fetchFail =>
      { s with visited := url :: s.visited, attempts := s.attempts + 1 }
    | PageResponse.parseFail =>
      { s with visited := url :: s.visited, attempts := s.attempts + 1 }
    | PageResponse.ok soup links =>
      let text := extract_text soup
      let s1 :=
        if text ≠ "" ∧ 50 < (pyStrip text).length then
          { s with records := s.records ++ [{ url := url, text := text }],
                   pages := s.pages + 1, total := s.total + 1 }
        else s
      let s2 := { s1 with visited := url :: s1.visited,
                          attempts := s1.attempts + 1 }
      { s2 with frontier := addLinks s2.visited s2.frontier links 0 }

/-- One iteration of the scrape_site while loop: under the loop condition
(non-empty frontier, per-origin budget and total budget not reached), some
frontier URL is popped (the Python set pop is arbitrary, so any member may
be chosen) and the loop body runs on the remaining state. -/
inductive Step (web : String → PageResponse) : CrawlState → CrawlState → Prop where
  | pop (s : CrawlState) (url : String)
      (hmem : url ∈ s.frontier)
      (hp : s.pages < MAX_PAGES_PER_DOMAIN)
      (ht : s.total < MAX_TOTAL_PAGES) :
      Step web s (processUrl web url { s with frontier := s.frontier.erase url })

/-- States a scrape_site run can pass through, from a given start state. -/
def Reachable (web : String → PageResponse) (s t : CrawlState) : Prop :=
  Relation.ReflTransGen (Step web) s t

/-- The origin runs main performs in sequence, threading the running page
total: the Nat index is the total after the listed runs (most recent run
first); each run starts from initState of its base URL and the total left
by the previous runs, and may stop at any reachable state of its loop. -/
inductive RunChain (web : String → PageResponse) : Nat → List CrawlState → Prop where
  | nil : RunChain web 0 []
  | cons (t : Nat) (ss : List CrawlState) (base : String) (s : CrawlState)
      (hprev : RunChain web t ss)
      (hreach : Reachable web (initState base t) s) :
      RunChain web s.total (s :: ss)

/-- One line of the record store as load_jsonl sees it: either a line that
is blank after stripping, or a parsed JSON object with optional text and
url fields (a missing field models obj.get returning the default). -/
inductive JsonlLine where
  | blank (raw : String)
  | record (text : Option String) (url : Option String)
deriving DecidableEq

/-- LangChain Document as load_jsonl builds it: the stripped text and the
source metadata entry. -/
structure Document where
  page_content : String
  source : String
deriving DecidableEq

/-- load_jsonl from ingest.py: skip blank lines, strip the text field
(defaulting to the empty string when absent), skip records whose stripped
text is empty, and keep the rest in file order with the url field
(defaulting to the empty string) as source. -/
def load_jsonl : List JsonlLine → List Document
  | [] => []
  | JsonlLine.blank _ :: rest => load_jsonl rest
  | JsonlLine.record text url :: rest =>
    let t := pyStrip (text.getD "")
    if t = "" then load_jsonl rest
    else { page_content := t, source := url.getD "" } :: load_jsonl rest

/-- Written from the claim text, for comparison with load_jsonl: the rule
deciding the fate of a single line — blank lines and records with an
absent or whitespace-only text field are dropped, every other record is
kept, with the empty string standing in for a missing url field. -/
def keepLine : JsonlLine → Option Document
  | JsonlLine.blank _ => none
  | JsonlLine.record text url =>
    match text with
    | none => none
    | some txt =>
      if pyStrip txt = "" then none
      else some { page_content := pyStrip txt, source := url.getD "" }

/-- Message of the ValueError the ingest entry point raises on empty
input. -/
def noValidDocsMsg : String := "No valid documents found in the supplied JSONL file."

/-- Observable effects of the ingest entry point, in order. -/
inductive IngestEffect where
  | mkdirOutput
  | raiseError (msg : String)
  | buildIndex (numDocs : Nat)
deriving DecidableEq

/-- Effect trace of the main block of ingest.py: after argument parsing it
always creates the output directory (mkdir with parents and exist_ok),
then loads the record store; with zero valid documents it raises the
ValueError (a non-zero exit), otherwise it proceeds to build the index
over the loaded documents. -/
def ingest_main (lines : List JsonlLine) : List IngestEffect :=
  let made := [IngestEffect.mkdirOutput]
  let documents := load_jsonl lines
  if documents.isEmpty then
    made ++ [IngestEffect.raiseError noValidDocsMsg]
  else
    made ++ [IngestEffect.buildIndex documents.length]

/-- Concrete URL with five non-empty path segments and no other
disqualifier. -/
def urlDeep : ParsedUrl :=
  { scheme := "https", netloc := "www.changiairport.com", path := "/at/the/air/port/now", query := "", fragment := "" }

/-- Concrete URL with four non-empty path segments and no other
disqualifier. -/
def urlShallow : ParsedUrl :=
  { scheme := "https", netloc := "www.changiairport.com", path := "/at/the/air/port", query := "", fragment := "" }

/-- Concrete URL whose path ends in a pdf extension, carrying both a query
and a fragment. -/
def urlPdf : ParsedUrl :=
  { scheme := "https", netloc := "www.changiairport.com", path := "/docs/Guide.PDF", query := "x=1", fragment := "top" }

/-- Concrete URL whose query holds a denylisted token only inside a
parameter value, never as a parameter name. -/
def urlValueToken : ParsedUrl :=
  { scheme := "https", netloc := "www.changiairport.com", path := "/shops", query := "category=pages", fragment := "" }

/-- Concrete URL with a tracking query parameter. -/
def urlTracking : ParsedUrl :=
  { scheme := "https", netloc := "www.changiairport.com", path := "/shops", query := "utm_source=mail", fragment := "" }

/-- Concrete URL whose query holds no denylisted token. -/
def urlClean : ParsedUrl :=
  { scheme := "https", netloc := "www.changiairport.com", path := "/shops", query := "x=1", fragment := "" }

/-- The filterMap of the trimmed-text rule equals trimming first and then
dropping the empty results. -/
theorem filterMap_strip_eq (l : List Element) :
    (l.filterMap fun el =>
      if pyStrip el.text = "" then none else some (pyStrip el.text)) =
    ((l.map fun el => pyStrip el.text).filter fun t => !decide (t = "")) := by
  induction l with
  | nil => rfl
  | cons a l ih =>
    by_cases h : pyStrip a.text = "" <;>
      simp [List.filterMap_cons, List.filter_cons, h, ih]

/-- Claim C1 fails on the code: on a page whose paragraph precedes its
heading and whose title trims to the empty string, extract_text emits the
empty title line and the heading before the paragraph, while the claimed
blob has no empty line and keeps document order. -/
theorem extract_text_counterexample :
    extract_text { title := some "  ",
                   body := [{ tag := Tag.p, text := "para" },
                            { tag := Tag.h1, text := "head" }] } ≠
    extract_text_claimed { title := some "  ",
                           body := [{ tag := Tag.p, text := "para" },
                                    { tag := Tag.h1, text := "head" }] } := by
  decide

/-- Claim C1 (amended): the extracted blob is the trimmed title text when
a title is present (even when trimming leaves it empty), then the
non-empty trimmed texts of all heading level 1 elements, then level 2,
then level 3, then all paragraphs, each group in document order, one text
per line. -/
theorem extract_text_eq_grouped (soup : Soup) :
    extract_text soup = extract_text_grouped soup := by
  unfold extract_text extract_text_grouped tag_texts
  cases soup.title <;>
    simp [List.flatMap_cons, List.flatMap_nil, filterMap_strip_eq]

/-- Claim C10: load_jsonl keeps exactly the parsed records whose stripped
text is non-empty, in file order, dropping blank lines and records with an
absent or whitespace-only text field, and substituting the empty string
for a missing url field. -/
theorem load_jsonl_eq_keepLine (lines : List JsonlLine) :
    load_jsonl lines = lines.filterMap keepLine := by
  induction lines with
  | nil => rfl
  | cons a rest ih =>
    cases a with
    | blank raw => simp [load_jsonl, keepLine, List.filterMap_cons, ih]
    | record text url =>
      cases text with
      | none =>
        have h0 : pyStrip "" = "" := rfl
        simp [load_jsonl, keepLine, List.filterMap_cons, ih, h0]
      | some txt =>
        by_cases h : pyStrip txt = "" <;>
          simp [load_jsonl, keepLine, List.filterMap_cons, h, ih]

/-- Claim C2 fails on the code: on an empty record store the entry point
does raise the no-valid-documents error, but only after the output
directory has already been created by the unconditional mkdir. -/
theorem ingest_empty_store_creates_dir :
    load_jsonl ([] : List JsonlLine) = [] ∧
    IngestEffect.raiseError noValidDocsMsg ∈ ingest_main [] ∧
    IngestEffect.mkdirOutput ∈ ingest_main [] := by
  decide

/-- Claim C2 (amended): with zero valid documents the ingest entry point
creates the output directory and then stops with the no-valid-documents
error (a non-zero exit), never reaching index construction. -/
theorem ingest_no_docs (lines : List JsonlLine) (h : load_jsonl lines = []) :
    ingest_main lines =
      [IngestEffect.mkdirOutput, IngestEffect.raiseError noValidDocsMsg] := by
  simp [ingest_main, h]

/-- The amended claim C2 at the empty record store. -/
theorem ingest_no_docs_witness :
    ingest_main [] =
      [IngestEffect.mkdirOutput, IngestEffect.raiseError noValidDocsMsg] :=
  ingest_no_docs [] rfl

/-- The early-return chain of should_skip_url is the disjunction of its
four checks. -/
theorem should_skip_url_eq_checks (u : ParsedUrl) :
    should_skip_url u =
      (ext_check u || query_check u || depth_check u || fragment_check u) := by
  unfold should_skip_url ext_check query_check depth_check fragment_check
  by_cases h3 : 4 < (path_segments u).length <;>
    cases h1 : SKIP_EXTENSIONS.any fun ext => pyEndsWith (pyLower u.path) ext <;>
    cases h2 : (u.query != "" &&
      skip_params.any fun param => strContains (pyLower u.query) param) <;>
    cases h4 : (u.fragment != "") <;>
    simp [h1, h2, h3, h4]

/-- Claim C5: a URL with 5 or more non-empty path segments is always
classified skip, and one with 4 or fewer segments that trips none of the
other checks is not skipped. -/
theorem depth_skip_rule (u : ParsedUrl) :
    (5 ≤ (path_segments u).length → should_skip_url u = true) ∧
    ((path_segments u).length ≤ 4 → ext_check u = false → query_check u = false →
      fragment_check u = false → should_skip_url u = false) := by
  constructor
  · intro h5
    rw [should_skip_url_eq_checks]
    have hd : depth_check u = true := decide_eq_true (by omega)
    simp [hd]
  · intro h4 he hq hf
    rw [should_skip_url_eq_checks]
    have hd : depth_check u = false := by
      unfold depth_check
      simp
      omega
    simp [he, hq, hd, hf]

/-- Claim C5 at a five-segment path and at a four-segment path with no
other disqualifier. -/
theorem depth_skip_rule_witness :
    should_skip_url urlDeep = true ∧ should_skip_url urlShallow = false :=
  ⟨(depth_skip_rule _).1 (by decide),
   (depth_skip_rule _).2 (by decide) (by decide) (by decide) (by decide)⟩

/-- Claim C6: a URL whose lowercased path ends in a denylisted extension
is always classified skip, whatever its query string and fragment. -/
theorem ext_skip_rule (u : ParsedUrl) (ext : String)
    (hmem : ext ∈ SKIP_EXTENSIONS)
    (hends : pyEndsWith (pyLower u.path) ext = true) :
    should_skip_url u = true := by
  rw [should_skip_url_eq_checks]
  have he : ext_check u = true := by
    unfold ext_check
    exact List.any_eq_true.mpr ⟨ext, hmem, hends⟩
  simp [he]

/-- Claim C6 at a pdf path carrying both a query and a fragment. -/
theorem ext_skip_rule_witness :
    should_skip_url urlPdf = true :=
  ext_skip_rule urlPdf ".pdf" (by decide) (by decide)

/-- Claim C7: for a URL with a non-empty query string, a denylisted token
occurring as a substring anywhere in the lowercased raw query forces skip;
when no other check trips, skip holds exactly on that substring condition;
the match is a plain substring test, so a token inside a parameter value
(never as a parameter name) also trips it. -/
theorem query_substring_rule (u : ParsedUrl) (hq : u.query ≠ "") :
    ((skip_params.any fun param => strContains (pyLower u.query) param) = true →
      should_skip_url u = true) ∧
    (ext_check u = false → depth_check u = false → fragment_check u = false →
      (should_skip_url u = true ↔
        (skip_params.any fun param => strContains (pyLower u.query) param) = true)) ∧
    should_skip_url urlValueToken = true := by
  have hq' : (u.query != "") = true := by
    simpa using hq
  refine ⟨?_, ?_, by decide⟩
  · intro hmatch
    rw [should_skip_url_eq_checks]
    have hqc : query_check u = true := by
      unfold query_check
      rw [hq', hmatch]
      rfl
    simp [hqc]
  · intro he hd hf
    rw [should_skip_url_eq_checks, he, hd, hf]
    unfold query_check
    rw [hq']
    simp

/-- Claim C7 at a tracking query and at a clean query. -/
theorem query_substring_rule_witness :
    should_skip_url urlTracking = true ∧
    ¬ (should_skip_url urlClean = true) :=
  ⟨(query_substring_rule _ (by decide)).1 (by decide),
   fun h => absurd
     (((query_substring_rule urlClean (by decide)).2.1
        (by decide) (by decide) (by decide)).mp h)
     (by decide)⟩

/-- Loop invariant of scrape_site, for a run whose total counter started
at t0: the visited and frontier sets are duplicate-free and disjoint, the
size of the visited set equals the number of fetch attempts, the emitted
records match the per-origin page counter, the total counter is the start
value plus the pages emitted here, and both budgets hold. -/
structure CrawlInv (t0 : Nat) (s : CrawlState) : Prop where
  vis_nodup : s.visited.Nodup
  fr_nodup : s.frontier.Nodup
  disj : ∀ u ∈ s.frontier, u ∉ s.visited
  vis_attempts : s.visited.length = s.attempts
  rec_pages : s.records.length = s.pages
  total_eq : s.total = t0 + s.pages
  pages_le : s.pages ≤ MAX_PAGES_PER_DOMAIN
  total_le : s.total ≤ max t0 MAX_TOTAL_PAGES

/-- addLinks preserves the no-duplicates property of the frontier. -/
theorem addLinks_nodup (visited : List String) :
    ∀ (links frontier : List String) (added : Nat), frontier.Nodup →
      (addLinks visited frontier links added).Nodup := by
  intro links
  induction links with
  | nil => intro fr n h; exact h
  | cons l rest ih =>
    intro fr n h
    unfold addLinks
    split
    · next hcond =>
      refine ih _ _ ?_
      rw [List.nodup_append]
      exact ⟨h, List.nodup_singleton l, by
        intro x hx hxl
        rw [List.mem_singleton] at hxl
        exact hcond.2.1 (hxl ▸ hx)⟩
    · exact ih fr n h

/-- A member of the frontier after addLinks was already in the frontier,
or is one of the discovered links and lay in neither set. -/
theorem addLinks_mem (visited : List String) :
    ∀ (links frontier : List String) (added : Nat) (u : String),
      u ∈ addLinks visited frontier links added →
      u ∈ frontier ∨ (u ∈ links ∧ u ∉ visited ∧ u ∉ frontier) := by
  intro links
  induction links with
  | nil => intro fr n u h; exact Or.inl h
  | cons l rest ih =>
    intro fr n u h
    unfold addLinks at h
    split at h
    · next hcond =>
      rcases ih _ _ u h with hfr | ⟨hrest, hnv, hnfr⟩
      · rcases List.mem_append.mp hfr with h1 | h2
        · exact Or.inl h1
        · have hul : u = l := by simpa using h2
          subst hul
          exact Or.inr ⟨List.mem_cons_self u rest, hcond.1, hcond.2.1⟩
      · have h1 : u ∉ fr := fun hx => hnfr (List.mem_append.mpr (Or.inl hx))
        exact Or.inr ⟨List.mem_cons_of_mem l hrest, hnv, h1⟩
    · rcases ih _ _ u h with hfr | ⟨hrest, hnv, hnfr⟩
      · exact Or.inl hfr
      · exact Or.inr ⟨List.mem_cons_of_mem l hrest, hnv, hnfr⟩

/-- Equation for processUrl when the fetch fails. -/
theorem processUrl_fetchFail (web : String → PageResponse) (url : String)
    (s : CrawlState) (hnv : url ∉ s.visited) (ht : s.total < MAX_TOTAL_PAGES)
    (hw : web url = PageResponse.fetchFail) :
    processUrl web url s =
      { s with visited := url :: s.visited, attempts := s.attempts + 1 } := by
  unfold processUrl
  rw [if_neg hnv, if_neg (Nat.not_le.mpr ht), hw]

/-- Equation for processUrl when every parser fails. -/
theorem processUrl_parseFail (web : String → PageResponse) (url : String)
    (s : CrawlState) (hnv : url ∉ s.visited) (ht : s.total < MAX_TOTAL_PAGES)
    (hw : web url = PageResponse.parseFail) :
    processUrl web url s =
      { s with visited := url :: s.visited, attempts := s.attempts + 1 } := by
  unfold processUrl
  rw [if_neg hnv, if_neg (Nat.not_le.mpr ht), hw]

/-- Equation for processUrl on a parsed page with accepted content. -/
theorem processUrl_ok_long (web : String → PageResponse) (url : String)
    (s : CrawlState) (soup : Soup) (links : List String)
    (hnv : url ∉ s.visited) (ht : s.total < MAX_TOTAL_PAGES)
    (hw : web url = PageResponse.ok soup links)
    (hc : extract_text soup ≠ "" ∧ 50 < (pyStrip (extract_text soup)).length) :
    processUrl web url s =
      { visited := url :: s.visited,
        frontier := addLinks (url :: s.visited) s.frontier links 0,
        records := s.records ++ [{ url := url, text := extract_text soup }],
        pages := s.pages + 1, total := s.total + 1,
        attempts := s.attempts + 1 } := by
  unfold processUrl
  rw [if_neg hnv, if_neg (Nat.not_le.mpr ht), hw]
  simp only [if_pos hc]

/-- Equation for processUrl on a parsed page with rejected content. -/
theorem processUrl_ok_short (web : String → PageResponse) (url : String)
    (s : CrawlState) (soup : Soup) (links : List String)
    (hnv : url ∉ s.visited) (ht : s.total < MAX_TOTAL_PAGES)
    (hw : web url = PageResponse.ok soup links)
    (hc : ¬ (extract_text soup ≠ "" ∧ 50 < (pyStrip (extract_text soup)).length)) :
    processUrl web url s =
      { s with visited := url :: s.visited,
               frontier := addLinks (url :: s.visited) s.frontier links 0,
               attempts := s.attempts + 1 } := by
  unfold processUrl
  rw [if_neg hnv, if_neg (Nat.not_le.mpr ht), hw]
  simp only [if_neg hc]

/-- One loop iteration preserves the scrape_site invariant. -/
theorem crawlInv_step {web : String → PageResponse} {t0 : Nat}
    {s s' : CrawlState} (hstep : Step web s s') (hinv : CrawlInv t0 s) :
    CrawlInv t0 s' := by
  cases hstep with
  | pop url hmem hp ht =>
    have hnv : url ∉ s.visited := hinv.disj url hmem
    have hfr : (s.frontier.erase url).Nodup := hinv.fr_nodup.erase url
    have hmem_erase : ∀ u ∈ s.frontier.erase url, u ≠ url ∧ u ∈ s.frontier :=
      fun u hu => hinv.fr_nodup.mem_erase_iff.mp hu
    have hvc : (url :: s.visited).Nodup :=
      List.nodup_cons.mpr ⟨hnv, hinv.vis_nodup⟩
    cases hw : web url with
    | fetchFail =>
      rw [processUrl_fetchFail web url { s with frontier := s.frontier.erase url } hnv ht hw]
      refine ⟨hvc, hfr, ?_, ?_, hinv.rec_pages, hinv.total_eq, hinv.pages_le,
        hinv.total_le⟩
      · intro u hu
        obtain ⟨hne, hufr⟩ := hmem_erase u hu
        simp [List.mem_cons, hne, hinv.disj u hufr]
      · simp [hinv.vis_attempts]
    | parseFail =>
      rw [processUrl_parseFail web url { s with frontier := s.frontier.erase url } hnv ht hw]
      refine ⟨hvc, hfr, ?_, ?_, hinv.rec_pages, hinv.total_eq, hinv.pages_le,
        hinv.total_le⟩
      · intro u hu
        obtain ⟨hne, hufr⟩ := hmem_erase u hu
        simp [List.mem_cons, hne, hinv.disj u hufr]
      · simp [hinv.vis_attempts]
    | ok soup links =>
      have hdisj : ∀ u ∈ addLinks (url :: s.visited) (s.frontier.erase url) links 0,
          u ∉ url :: s.visited := by
        intro u hu
        rcases addLinks_mem (url :: s.visited) links _ 0 u hu with
          hfr' | ⟨_, hnv', _⟩
        · obtain ⟨hne, hufr⟩ := hmem_erase u hfr'
          simp [List.mem_cons, hne, hinv.disj u hufr]
        · exact hnv'
      have hnodup : (addLinks (url :: s.visited) (s.frontier.erase url) links 0).Nodup :=
        addLinks_nodup (url :: s.visited) links _ 0 hfr
      by_cases hc : extract_text soup ≠ "" ∧ 50 < (pyStrip (extract_text soup)).length
      · rw [processUrl_ok_long web url { s with frontier := s.frontier.erase url } soup links hnv ht hw hc]
        refine ⟨hvc, hnodup, hdisj, ?_, ?_, ?_, ?_, ?_⟩
        · simp [hinv.vis_attempts]
        · simp [hinv.rec_pages]
        · have := hinv.total_eq
          simp only []
          omega
        · have := hp
          simp only []
          omega
        · have h1 : s.total + 1 ≤ MAX_TOTAL_PAGES := ht
          exact le_trans h1 (le_max_right t0 MAX_TOTAL_PAGES)
      · rw [processUrl_ok_short web url { s with frontier := s.frontier.erase url } soup links hnv ht hw hc]
        refine ⟨hvc, hnodup, hdisj, ?_, hinv.rec_pages, hinv.total_eq,
          hinv.pages_le, hinv.total_le⟩
        simp [hinv.vis_attempts]

/-- The scrape_site invariant holds at the start state. -/
theorem crawlInv_init (base : String) (t0 : Nat) :
    CrawlInv t0 (initState base t0) := by
  refine ⟨?_, ?_, ?_, ?_, ?_, ?_, ?_, ?_⟩
  · simp [initState]
  · simp [initState]
  · simp [initState]
  · simp [initState]
  · simp [initState]
  · simp [initState]
  · simp [initState, MAX_PAGES_PER_DOMAIN]
  · exact le_max_left t0 MAX_TOTAL_PAGES

/-- The scrape_site invariant holds at every reachable state. -/
theorem crawlInv_reachable {web : String → PageResponse} {base : String}
    {t0 : Nat} {s : CrawlState} (h : Reachable web (initState base t0) s) :
    CrawlInv t0 s := by
  induction h with
  | refl => exact crawlInv_init base t0
  | tail _ hstep ih => exact crawlInv_step hstep ih

/-- Claim C3: within one scrape_site run no URL is fetched twice — the
size of the duplicate-free visited set always equals the number of fetch
attempts, and every further iteration fetches a URL not yet visited and
adds exactly that URL to the visited set (on success, fetch failure and
parse failure alike), so a failed URL is never retried in that run. -/
theorem crawl_no_refetch (web : String → PageResponse) (base : String)
    (t0 : Nat) (s : CrawlState) (h : Reachable web (initState base t0) s) :
    s.visited.length = s.attempts ∧ s.visited.Nodup ∧
    ∀ s', Step web s s' → ∃ url, url ∉ s.visited ∧
      s'.visited = url :: s.visited ∧ s'.attempts = s.attempts + 1 := by
  have hinv := crawlInv_reachable h
  refine ⟨hinv.vis_attempts, hinv.vis_nodup, ?_⟩
  intro s' hstep
  cases hstep with
  | pop url hmem hp ht =>
    have hnv : url ∉ s.visited := hinv.disj url hmem
    refine ⟨url, hnv, ?_⟩
    cases hw : web url with
    | fetchFail =>
      rw [processUrl_fetchFail web url { s with frontier := s.frontier.erase url } hnv ht hw]
      exact ⟨rfl, rfl⟩
    | parseFail =>
      rw [processUrl_parseFail web url { s with frontier := s.frontier.erase url } hnv ht hw]
      exact ⟨rfl, rfl⟩
    | ok soup links =>
      by_cases hc : extract_text soup ≠ "" ∧ 50 < (pyStrip (extract_text soup)).length
      · rw [processUrl_ok_long web url { s with frontier := s.frontier.erase url } soup links hnv ht hw hc]
        exact ⟨rfl, rfl⟩
      · rw [processUrl_ok_short web url { s with frontier := s.frontier.erase url } soup links hnv ht hw hc]
        exact ⟨rfl, rfl⟩

/-- The no-refetch claim at the start state of a run. -/
theorem crawl_no_refetch_witness :
    (initState "https://www.jewelchangiairport.com/" 0).visited.length =
      (initState "https://www.jewelchangiairport.com/" 0).attempts :=
  (crawl_no_refetch (fun _ => PageResponse.fetchFail)
    "https://www.jewelchangiairport.com/" 0
    (initState "https://www.jewelchangiairport.com/" 0)
    Relation.ReflTransGen.refl).1

/-- Along a chain of origin runs the running total equals the records
emitted so far, never exceeds the global budget, and each run stays within
the per-origin budget. -/
theorem runChain_bounds (web : String → PageResponse) :
    ∀ (t : Nat) (ss : List CrawlState), RunChain web t ss →
      t = (ss.map fun s => s.records.length).sum ∧ t ≤ MAX_TOTAL_PAGES ∧
      ∀ s ∈ ss, s.records.length ≤ MAX_PAGES_PER_DOMAIN := by
  intro t ss h
  induction h with
  | nil => exact ⟨rfl, Nat.zero_le _, by simp⟩
  | cons t ss base s hprev hreach ih =>
    obtain ⟨hsum, hle, hall⟩ := ih
    have hinv := crawlInv_reachable hreach
    have h100 : s.records.length ≤ MAX_PAGES_PER_DOMAIN := by
      rw [hinv.rec_pages]
      exact hinv.pages_le
    have htot : s.total = t + s.records.length := by
      rw [hinv.rec_pages]
      exact hinv.total_eq
    have hstot : s.total ≤ MAX_TOTAL_PAGES :=
      le_trans hinv.total_le (le_of_eq (max_eq_right hle))
    refine ⟨?_, hstot, ?_⟩
    · simp only [List.map_cons, List.sum_cons]
      omega
    · intro x hx
      rcases List.mem_cons.mp hx with rfl | hx2
      · exact h100
      · exact hall x hx2

/-- Claim C4: over any sequence of origin runs threading the shared total
counter, each run emits at most 100 PageRecords and all runs together emit
at most 200, whatever the frontier sizes. -/
theorem crawl_budgets (web : String → PageResponse) (t : Nat)
    (ss : List CrawlState) (h : RunChain web t ss) :
    (∀ s ∈ ss, s.records.length ≤ MAX_PAGES_PER_DOMAIN) ∧
    (ss.map fun s => s.records.length).sum ≤ MAX_TOTAL_PAGES := by
  obtain ⟨hsum, hle, hall⟩ := runChain_bounds web t ss h
  exact ⟨hall, hsum ▸ hle⟩

/-- The budget claim on a one-run chain. -/
theorem crawl_budgets_witness :
    (([initState "https://www.jewelchangiairport.com/" 0].map
      fun s => s.records.length).sum ≤ MAX_TOTAL_PAGES) :=
  (crawl_budgets (fun _ => PageResponse.fetchFail)
    (initState "https://www.jewelchangiairport.com/" 0).total
    [initState "https://www.jewelchangiairport.com/" 0]
    (RunChain.cons 0 [] "https://www.jewelchangiairport.com/"
      (initState "https://www.jewelchangiairport.com/" 0)
      RunChain.nil Relation.ReflTransGen.refl)).2

/-- Claim C8: on a fetched and parsed page whose extracted text is empty
or whose stripped length is at most 50, no record is emitted and neither
counter moves, yet the URL is marked visited; a record is emitted, with
both counters incremented, exactly when the text is non-empty and its
stripped length exceeds 50. -/
theorem content_threshold_rule (web : String → PageResponse) (url : String)
    (s : CrawlState) (soup : Soup) (links : List String)
    (hw : web url = PageResponse.ok soup links)
    (hnv : url ∉ s.visited) (ht : s.total < MAX_TOTAL_PAGES) :
    url ∈ (processUrl web url s).visited ∧
    (¬ (extract_text soup ≠ "" ∧ 50 < (pyStrip (extract_text soup)).length) →
      (processUrl web url s).records = s.records ∧
      (processUrl web url s).pages = s.pages ∧
      (processUrl web url s).total = s.total) ∧
    ((extract_text soup ≠ "" ∧ 50 < (pyStrip (extract_text soup)).length) →
      (processUrl web url s).records =
        s.records ++ [{ url := url, text := extract_text soup }] ∧
      (processUrl web url s).pages = s.pages + 1 ∧
      (processUrl web url s).total = s.total + 1) := by
  by_cases hc : extract_text soup ≠ "" ∧ 50 < (pyStrip (extract_text soup)).length
  · rw [processUrl_ok_long web url s soup links hnv ht hw hc]
    exact ⟨List.mem_cons_self url s.visited, fun hn => absurd hc hn,
      fun _ => ⟨rfl, rfl, rfl⟩⟩
  · rw [processUrl_ok_short web url s soup links hnv ht hw hc]
    exact ⟨List.mem_cons_self url s.visited, fun _ => ⟨rfl, rfl, rfl⟩,
      fun hcc => absurd hcc hc⟩

/-- The content-threshold claim on a concrete empty page: no record, but
the URL is marked visited. -/
theorem content_threshold_rule_witness :
    "u" ∈ (processUrl (fun _ => PageResponse.ok ⟨none, []⟩ []) "u" (initState "u" 0)).visited ∧
    (processUrl (fun _ => PageResponse.ok ⟨none, []⟩ []) "u" (initState "u" 0)).records =
      (initState "u" 0).records :=
  ⟨(content_threshold_rule (fun _ => PageResponse.ok ⟨none, []⟩ []) "u"
      (initState "u" 0) ⟨none, []⟩ [] rfl (by decide) (by decide)).1,
   ((content_threshold_rule (fun _ => PageResponse.ok ⟨none, []⟩ []) "u"
      (initState "u" 0) ⟨none, []⟩ [] rfl (by decide) (by decide)).2.1 (by decide)).1⟩

/-- Claim C9: at every reachable state of a run the frontier and the
visited set are disjoint (so the stale-entry guard after a pop never
fires), and a link enters the frontier only when it lies in neither the
visited set nor the frontier. -/
theorem frontier_visited_disjoint (web : String → PageResponse) (base : String)
    (t0 : Nat) (s : CrawlState) (h : Reachable web (initState base t0) s) :
    (∀ u ∈ s.frontier, u ∉ s.visited) ∧
    (∀ (visited frontier links : List String) (added : Nat) (u : String),
      u ∈ addLinks visited frontier links added →
      u ∈ frontier ∨ (u ∈ links ∧ u ∉ visited ∧ u ∉ frontier)) :=
  ⟨(crawlInv_reachable h).disj, fun v f l a u hu => addLinks_mem v l f a u hu⟩

/-- The disjointness claim at the start state of a run. -/
theorem frontier_visited_disjoint_witness :
    "b" ∉ (initState "b" 0).visited :=
  (frontier_visited_disjoint (fun _ => PageResponse.fetchFail) "b" 0
    (initState "b" 0) Relation.ReflTransGen.refl).1 "b" (by decide)
